import Mathlib

/-!
Shallow embedding of the retail shop dashboard (src/app.py): the relational
store (products, orders, order_items), the seed loader, the aggregation
functions and the order workflow, together with theorems settling the claims
about them.

Prices are modelled as rationals, timestamps as integer hours since an
arbitrary epoch (the code only ever uses hour-of-day and a 30-day cutoff),
and SQLite AUTOINCREMENT primary keys as counters that survive DELETE.
-/

/-- A row of the products table. -/
structure Product where
  id : Nat
  name : String
  cost_price : ℚ
  selling_price : ℚ
  stock_qty : Int
deriving Repr, DecidableEq

/-- A row of the orders table. -/
structure Order where
  id : Nat
  order_time : Int
  customer_name : String
  total_amount : ℚ
deriving Repr, DecidableEq

/-- A row of the order_items table. -/
structure OrderItem where
  id : Nat
  order_id : Nat
  product_id : Nat
  qty : Nat
  unit_price : ℚ
deriving Repr, DecidableEq

/-- The SQLite database: three tables plus the AUTOINCREMENT sequences
(which DELETE does not reset). -/
structure Store where
  products : List Product
  orders : List Order
  order_items : List OrderItem
  next_product_id : Nat
  next_order_id : Nat
  next_item_id : Nat
deriving Repr, DecidableEq

/-- A fresh database: empty tables, rowids starting at 1. -/
def initStore : Store := ⟨[], [], [], 1, 1, 1⟩

/-- SELECT ... FROM products WHERE id = pid (primary-key lookup). -/
def lookupProduct (s : Store) (pid : Nat) : Option Product :=
  s.products.find? (fun p => p.id == pid)

/-- The clamped stock decrement:
UPDATE products SET stock_qty = CASE WHEN stock_qty - q < 0 THEN 0
ELSE stock_qty - q END. -/
def decStock (stock : Int) (q : Nat) : Int :=
  if stock - (q : Int) < 0 then 0 else stock - (q : Int)

/-- The row transformation of the clamped stock UPDATE ... WHERE id = pid:
the matching row is clamp-decremented, all other rows are untouched. -/
def clampAt (pid : Nat) (q : Nat) (r : Product) : Product :=
  if r.id == pid then { r with stock_qty := decStock r.stock_qty q } else r

/-- A row of the order_items frame produced by load_tables, which joins in
the product name and cost_price. -/
structure ItemRow where
  id : Nat
  order_id : Nat
  product_id : Nat
  qty : Nat
  unit_price : ℚ
  product_name : String
  cost_price : ℚ
deriving Repr, DecidableEq

/-- Insertion of one element into a list sorted by a boolean order. -/
def insertLe {α : Type} (le : α → α → Bool) (x : α) : List α → List α
  | [] => [x]
  | y :: ys => if le x y then x :: y :: ys else y :: insertLe le x ys

/-- Stable insertion sort by a boolean order (models pandas sorting at the
value level; tie order is unspecified in the source). -/
def sortLe {α : Type} (le : α → α → Bool) : List α → List α
  | [] => []
  | x :: xs => insertLe le x (sortLe le xs)

/-- First product_name recorded for a product id
(drop_duplicates keeps the first occurrence). -/
def nameOf (items : List ItemRow) (pid : Nat) : String :=
  ((items.find? (fun it => it.product_id == pid)).map (fun it => it.product_name)).getD ""

/-- A row of the best-selling report. -/
structure BestRow where
  product_id : Nat
  qty : Nat
  product_name : String
deriving Repr, DecidableEq

/-- compute_best_selling: group order items by product_id summing qty
(groupby sorts keys ascending), attach the product name, sort descending by
qty and keep the top 5; empty input gives an empty frame. -/
def compute_best_selling (items : List ItemRow) : List BestRow :=
  if items.isEmpty then []
  else
    let pids := sortLe (fun a b => a ≤ b) (items.map (fun it => it.product_id)).eraseDups
    let rows := pids.map (fun pid =>
      BestRow.mk pid ((items.filter (fun it => it.product_id == pid)).map
        (fun it => it.qty)).sum (nameOf items pid))
    (sortLe (fun a b => b.qty ≤ a.qty) rows).take 5

/-- A row of the profit report. -/
structure ProfitRow where
  product_id : Nat
  product_name : String
  profit : ℚ
deriving Repr, DecidableEq

/-- compute_top_profit_products: per item profit = (unit_price - cost_price)
* qty, grouped by (product_id, product_name) with keys ascending, sorted
descending by profit, top 5; empty input gives an empty frame. -/
def compute_top_profit_products (items : List ItemRow) : List ProfitRow :=
  if items.isEmpty then []
  else
    let keys := sortLe (fun a b => a.1 ≤ b.1)
      (items.map (fun it => (it.product_id, it.product_name))).eraseDups
    let rows := keys.map (fun k =>
      ProfitRow.mk k.1 k.2
        ((items.filter (fun it => it.product_id == k.1 && it.product_name == k.2)).map
          (fun it => (it.unit_price - it.cost_price) * (it.qty : ℚ))).sum)
    (sortLe (fun a b => b.profit ≤ a.profit) rows).take 5

/-- Hour-of-day of a timestamp measured in hours. -/
def hourOf (t : Int) : Nat := (t % 24).toNat

/-- Orders whose order_time falls in hour-of-day h. -/
def countHour (orders : List Order) (h : Nat) : Nat :=
  (orders.filter (fun o => hourOf o.order_time == h)).length

/-- compute_customers_per_hour: empty input gives an empty frame; otherwise
count orders per hour-of-day and left-merge against the full 0..23 range,
filling missing hours with 0. -/
def compute_customers_per_hour (orders : List Order) : List (Nat × Nat) :=
  if orders.isEmpty then []
  else (List.range 24).map (fun h => (h, countHour orders h))

/-- A row of the low-stock report. -/
structure LowRow where
  id : Nat
  name : String
  stock_qty : Int
  sold_last_30d : Nat
deriving Repr, DecidableEq

/-- compute_low_stock: filter products with stock_qty below the threshold;
if any remain, re-read the orders table from the store through a fresh
connection (the storeOrders argument models that read), keep orders of the
last 30 days (720 hours), and give each low product the summed qty of order
items belonging to those recent orders (0 when it has none, and 0 for
everyone when no order is recent). -/
def compute_low_stock (products : List Product) (order_items : List OrderItem)
    (storeOrders : List Order) (now : Int) (threshold : Int) : List LowRow :=
  if (products.filter (fun p => p.stock_qty < threshold)).isEmpty then []
  else if (storeOrders.filter (fun o => now - 720 ≤ o.order_time)).isEmpty then
    (products.filter (fun p => p.stock_qty < threshold)).map
      (fun p => LowRow.mk p.id p.name p.stock_qty 0)
  else
    (products.filter (fun p => p.stock_qty < threshold)).map
      (fun p => LowRow.mk p.id p.name p.stock_qty
        ((order_items.filter (fun it =>
          ((storeOrders.filter (fun o => now - 720 ≤ o.order_time)).map
            (fun o => o.id)).contains it.order_id && it.product_id == p.id)).map
              (fun it => it.qty)).sum)

/-- Modelled from the spec (refinement target for the low-stock claim): the
30-day sold count of a product is the sum of qty over order items whose
parent order exists and has order_time within the last 30 days. -/
def soldLast30Spec (order_items : List OrderItem) (storeOrders : List Order)
    (now : Int) (pid : Nat) : Nat :=
  ((order_items.filter (fun it =>
    storeOrders.any (fun o => o.id == it.order_id && now - 720 ≤ o.order_time)
      && it.product_id == pid)).map (fun it => it.qty)).sum

/-- compute_best_selling run in the context of a store: the function takes
only its table argument, so the store does not appear on the right side. -/
def run_best_selling (s : Store) (items : List ItemRow) : List BestRow :=
  compute_best_selling items

/-- compute_top_profit_products run in the context of a store. -/
def run_top_profit (s : Store) (items : List ItemRow) : List ProfitRow :=
  compute_top_profit_products items

/-- compute_customers_per_hour run in the context of a store. -/
def run_customers_per_hour (s : Store) (orders : List Order) : List (Nat × Nat) :=
  compute_customers_per_hour orders

/-- compute_low_stock run in the context of a store: the fresh-connection
read of the orders table makes the result depend on the store. -/
def run_low_stock (s : Store) (products : List Product)
    (order_items : List OrderItem) (now : Int) (threshold : Int) : List LowRow :=
  compute_low_stock products order_items s.orders now threshold

/-!  The order workflow (Admin - Add Order).  A staged cart line holds only
a product id and a quantity; no price is stored at staging time. -/

/-- One staged cart line. -/
structure CartItem where
  product_id : Nat
  qty : Nat
deriving Repr, DecidableEq

/-- Current selling price of a product, read from the store
(0 as a placeholder when the product is absent; the code raises there). -/
def priceOf (s : Store) (pid : Nat) : ℚ :=
  ((lookupProduct s pid).map (fun p => p.selling_price)).getD 0

/-- The bill total shown on the page and inserted into the order row:
for each staged line, look the product up in the loaded products frame and
add selling_price * qty; a missing product raises (modelled as none). -/
def billTotal (s : Store) : List CartItem → Option ℚ
  | [] => some 0
  | it :: rest =>
    match lookupProduct s it.product_id, billTotal s rest with
    | some p, some t => some (p.selling_price * (it.qty : ℚ) + t)
    | _, _ => none

/-- One iteration of the finalize loop: re-read the selling price from the
store (a missing row raises, modelled as none), insert the order item with
that price, and clamp-decrement the product stock. -/
def applyItem (s : Store) (oid : Nat) (it : CartItem) : Option Store :=
  match lookupProduct s it.product_id with
  | none => none
  | some p =>
    some { s with
      order_items := s.order_items ++
        [⟨s.next_item_id, oid, it.product_id, it.qty, p.selling_price⟩],
      next_item_id := s.next_item_id + 1,
      products := s.products.map (clampAt it.product_id it.qty) }

/-- The finalize loop over all staged lines; any failure aborts the run. -/
def applyItems (s : Store) (oid : Nat) : List CartItem → Option Store
  | [] => some s
  | it :: rest =>
    match applyItem s oid it with
    | none => none
    | some s2 => applyItems s2 oid rest

/-- INSERT INTO orders (order_time, customer_name, total_amount): the row
gets the next id from the AUTOINCREMENT sequence. -/
def insertOrderRow (s : Store) (otime : Int) (cust : String)
    (total : ℚ) : Store :=
  { s with
    orders := s.orders ++ [⟨s.next_order_id, otime, cust, total⟩],
    next_order_id := s.next_order_id + 1 }

/-- The Finalize Order handler: compute the bill total from the loaded
products frame, insert the order row, run the item loop, and commit; the
new order id and the total are reported to the user.  Any failure means no
commit is reached, so nothing is returned. -/
def finalizeOrder (s : Store) (cart : List CartItem) (now : Int)
    (cust : String) : Option (Store × Nat × ℚ) :=
  match billTotal s cart with
  | none => none
  | some total =>
    match applyItems (insertOrderRow s now cust total) s.next_order_id cart with
    | none => none
    | some s2 => some (s2, s.next_order_id, total)

/-- The database state that is actually committed by a finalize attempt:
the single commit runs only after every statement succeeded, so a failed
attempt leaves the committed state untouched. -/
def finalizeCommitted (s : Store) (cart : List CartItem) (now : Int)
    (cust : String) : Store :=
  match finalizeOrder s cart now cust with
  | none => s
  | some (s2, _, _) => s2

/-- The whole Add Order page action: with an empty cart the Finalize button
is not rendered (the page only shows a hint), so the store is untouched and
nothing is returned. -/
def addOrderAction (s : Store) (cart : List CartItem) (now : Int)
    (cust : String) : Store × Option (Nat × ℚ) :=
  if cart.isEmpty then (s, none)
  else
    match finalizeOrder s cart now cust with
    | none => (s, none)
    | some (s2, oid, t) => (s2, some (oid, t))

/-- The Add New Product form: INSERT INTO products. -/
def addProductAction (s : Store) (name : String) (cost sell : ℚ)
    (stock : Int) : Store :=
  { s with
    products := s.products ++ [⟨s.next_product_id, name, cost, sell, stock⟩],
    next_product_id := s.next_product_id + 1 }

/-- The Add Stock form: UPDATE products SET stock_qty = stock_qty + q. -/
def addStockAction (s : Store) (pid : Nat) (q : Nat) : Store :=
  { s with
    products := s.products.map (fun p =>
      if p.id == pid then { p with stock_qty := p.stock_qty + (q : Int) } else p) }

/-!  The seed loader. -/

/-- The fixed product rows of seed_dummy_data: name, cost, sell, stock. -/
def seedProducts : List (String × ℚ × ℚ × Int) :=
  [("Milk 1L", 20, 25, 50),
   ("Bread Loaf", 15, 20, 30),
   ("Eggs Pack (12)", 60, 75, 20),
   ("Toothpaste", 40, 55, 10),
   ("Soap", 10, 20, 5),
   ("Rice 5kg", 250, 300, 8),
   ("Cooking Oil 1L", 120, 150, 12),
   ("Sugar 1kg", 40, 50, 0),
   ("Salt 1kg", 12, 20, 40),
   ("Tea Pack 100g", 30, 45, 3)]

/-- The fixed sample orders: customer, order_time relative to now (in
hours), and (product_id, qty) line items referencing ids 1..10. -/
def sampleOrders (now : Int) : List (String × Int × List (Nat × Nat)) :=
  [("Amit", now - 2 * 24, [(1, 2), (2, 1)]),
   ("Shreya", now - 5 * 24, [(3, 1), (5, 2)]),
   ("Ramesh", now - 10 * 24, [(6, 1), (7, 1)]),
   ("Priya", now - 1 * 24, [(1, 1), (2, 2), (9, 1)]),
   ("Karan", now - 4 * 24, [(10, 1), (4, 1)]),
   ("Neha", now - 8 * 24, [(1, 1), (8, 1)]),
   ("LocalShop", now - 6 * 24, [(9, 5), (2, 5)])]

/-- INSERT INTO products for each seed row, ids from the sequence. -/
def insertProducts (s : Store) : List (String × ℚ × ℚ × Int) → Store
  | [] => s
  | (n, c, sp, st) :: rest =>
    insertProducts
      { s with
        products := s.products ++ [⟨s.next_product_id, n, c, sp, st⟩],
        next_product_id := s.next_product_id + 1 } rest

/-- The item loop of one sample order: a line whose product id is missing
is skipped (continue); otherwise insert the order item at the current
selling price, accumulate the running total, and clamp-decrement stock. -/
def seedItems (s : Store) (oid : Nat) (total : ℚ) :
    List (Nat × Nat) → Store × ℚ
  | [] => (s, total)
  | (pid, q) :: rest =>
    match lookupProduct s pid with
    | none => seedItems s oid total rest
    | some p =>
      seedItems
        { s with
          order_items := s.order_items ++
            [⟨s.next_item_id, oid, pid, q, p.selling_price⟩],
          next_item_id := s.next_item_id + 1,
          products := s.products.map (clampAt pid q) }
        oid (total + p.selling_price * (q : ℚ)) rest

/-- The row transformation of UPDATE orders SET total_amount = t
WHERE id = oid. -/
def setTotalAt (oid : Nat) (t : ℚ) (o : Order) : Order :=
  if o.id == oid then { o with total_amount := t } else o

/-- UPDATE orders SET total_amount = t WHERE id = oid. -/
def setOrderTotal (s : Store) (oid : Nat) (t : ℚ) : Store :=
  { s with orders := s.orders.map (setTotalAt oid t) }

/-- Seeding of one sample order: insert the order row with total 0.0, run
the item loop, then write the accumulated total back onto the row. -/
def seedOrder (s : Store) (cust : String) (otime : Int)
    (items : List (Nat × Nat)) : Store :=
  let oid := s.next_order_id
  let r := seedItems (insertOrderRow s otime cust 0) oid 0 items
  setOrderTotal r.1 oid r.2

/-- The loop over all sample orders. -/
def seedOrdersAll (s : Store) : List (String × Int × List (Nat × Nat)) → Store
  | [] => s
  | (c, t, its) :: rest => seedOrdersAll (seedOrder s c t its) rest

/-- seed_dummy_data: return immediately when products is non-empty and
force is off; otherwise DELETE all three tables (AUTOINCREMENT sequences
survive), insert the fixed products and seed the sample orders. -/
def seed_dummy_data (s : Store) (force : Bool) (now : Int) : Store :=
  if ¬ s.products.isEmpty ∧ force = false then s
  else
    let s0 := { s with products := [], orders := [], order_items := [] }
    let s1 := insertProducts s0 seedProducts
    seedOrdersAll s1 (sampleOrders now)

/-!  Reachable store states. -/

/-- One user-visible operation on the store.  The add-product and add-stock
forms enforce their input bounds at the boundary (number_input minimums),
which the constructors carry as hypotheses. -/
inductive Step : Store → Store → Prop
  | seed (s : Store) (force : Bool) (now : Int) :
      Step s (seed_dummy_data s force now)
  | addProduct (s : Store) (name : String) (cost sell : ℚ) (stock : Int)
      (hstock : 0 ≤ stock) :
      Step s (addProductAction s name cost sell stock)
  | addStock (s : Store) (pid : Nat) (q : Nat) (hq : 1 ≤ q) :
      Step s (addStockAction s pid q)
  | finalize (s : Store) (cart : List CartItem) (now : Int) (cust : String) :
      Step s (addOrderAction s cart now cust).1

/-- Store states reachable from a fresh database. -/
def Reachable (s : Store) : Prop :=
  Relation.ReflTransGen Step initStore s

/-- The invariant of the stock column: never negative. -/
def stockInv (s : Store) : Prop :=
  ∀ p ∈ s.products, 0 ≤ p.stock_qty

/-- Sum of unit_price * qty over the order items of one order. -/
def itemsTotal (l : List OrderItem) (oid : Nat) : ℚ :=
  ((l.filter (fun it => it.order_id == oid)).map
    (fun it => it.unit_price * (it.qty : ℚ))).sum

/-- Sum over staged lines of the current selling price times qty. -/
def cartTotal (s : Store) (cart : List CartItem) : ℚ :=
  (cart.map (fun it => priceOf s it.product_id * (it.qty : ℚ))).sum

/-- The order-item rows a successful finalize appends: one row per staged
line, ids running from base, each priced at the current selling price. -/
def expectedRows (s : Store) (oid : Nat) (base : Nat) :
    List CartItem → List OrderItem
  | [] => []
  | it :: rest =>
    ⟨base, oid, it.product_id, it.qty, priceOf s it.product_id⟩ ::
      expectedRows s oid (base + 1) rest

/-- A freshly seeded database, used as a concrete test state. -/
def demoStore : Store := seed_dummy_data initStore false 720

/-!  Lemmas about hour buckets. -/

lemma hourOf_lt (t : Int) : hourOf t < 24 := by
  unfold hourOf
  have h1 : 0 ≤ t % 24 := Int.emod_nonneg t (by norm_num)
  have h2 : t % 24 < 24 := Int.emod_lt_of_pos t (by norm_num)
  omega

lemma countHour_cons (o : Order) (l : List Order) (h : Nat) :
    countHour (o :: l) h
      = (if hourOf o.order_time = h then 1 else 0) + countHour l h := by
  simp [countHour, List.filter_cons]
  split <;> simp_all <;> omega

lemma sum_map_range_add (n : Nat) (f g : Nat → Nat) :
    ((List.range n).map (fun h => f h + g h)).sum
      = ((List.range n).map f).sum + ((List.range n).map g).sum := by
  induction n with
  | zero => simp
  | succ m ih => simp [List.range_succ, ih]; omega

lemma sum_map_range_ind (n k : Nat) (hk : k < n) :
    ((List.range n).map (fun h => if k = h then 1 else 0)).sum = 1 := by
  induction n with
  | zero => omega
  | succ m ih =>
    rcases Nat.lt_succ_iff_lt_or_eq.mp hk with h | h
    · have hne : ¬ k = m := by omega
      simp [List.range_succ, ih h, hne]
    · subst h
      have hz : ((List.range k).map (fun h => if k = h then 1 else 0)).sum = 0 := by
        apply List.sum_eq_zero
        intro x hx
        rcases List.mem_map.mp hx with ⟨j, hj, hxe⟩
        have hjk : j < k := List.mem_range.mp hj
        have hkj : ¬ k = j := by omega
        rw [if_neg hkj] at hxe
        omega
      simp [List.range_succ, hz]

lemma sum_countHour (l : List Order) :
    ((List.range 24).map (fun h => countHour l h)).sum = l.length := by
  induction l with
  | nil => simp [countHour]
  | cons o rest ih =>
    have hc : (fun h => countHour (o :: rest) h)
        = (fun h => (if hourOf o.order_time = h then 1 else 0) + countHour rest h) := by
      funext h
      exact countHour_cons o rest h
    rw [hc, sum_map_range_add,
      sum_map_range_ind 24 (hourOf o.order_time) (hourOf_lt _), ih]
    simp [Nat.add_comm]

/-!  Lemmas about the stock invariant. -/

lemma decStock_nonneg (st : Int) (q : Nat) : 0 ≤ decStock st q := by
  unfold decStock
  split <;> omega

lemma clampAt_nonneg (pid : Nat) (q : Nat) (r : Product)
    (h : 0 ≤ r.stock_qty) : 0 ≤ (clampAt pid q r).stock_qty := by
  unfold clampAt
  split
  · exact decStock_nonneg r.stock_qty q
  · exact h

lemma clampAt_id (pid : Nat) (q : Nat) (r : Product) :
    (clampAt pid q r).id = r.id := by
  unfold clampAt
  split <;> rfl

lemma clampAt_selling (pid : Nat) (q : Nat) (r : Product) :
    (clampAt pid q r).selling_price = r.selling_price := by
  unfold clampAt
  split <;> rfl

lemma stockInv_clampMap (l : List Product) (pid : Nat) (q : Nat)
    (hs : ∀ p ∈ l, 0 ≤ p.stock_qty) :
    ∀ p ∈ l.map (clampAt pid q), 0 ≤ p.stock_qty := by
  intro p hp
  rcases List.mem_map.mp hp with ⟨y, hy, he⟩
  rw [← he]
  exact clampAt_nonneg pid q y (hs y hy)

lemma stockInv_addProduct (s : Store) (n : String) (c sp : ℚ) (st : Int)
    (hs : stockInv s) (hst : 0 ≤ st) :
    stockInv (addProductAction s n c sp st) := by
  intro p hp
  rcases List.mem_append.mp hp with h | h
  · exact hs p h
  · rcases List.mem_singleton.mp h with rfl
    exact hst

lemma stockInv_addStock (s : Store) (pid : Nat) (q : Nat) (hs : stockInv s) :
    stockInv (addStockAction s pid q) := by
  intro p hp
  rcases List.mem_map.mp hp with ⟨y, hy, he⟩
  by_cases hid : (y.id == pid) = true
  · rw [if_pos hid] at he
    rw [← he]
    have hy0 := hs y hy
    show 0 ≤ y.stock_qty + (q : Int)
    omega
  · rw [if_neg hid] at he
    rw [← he]
    exact hs y hy

lemma stockInv_applyItem (s s2 : Store) (oid : Nat) (it : CartItem)
    (h : applyItem s oid it = some s2) (hs : stockInv s) : stockInv s2 := by
  unfold applyItem at h
  split at h
  · cases h
  · rename_i p hl
    cases h
    intro r hr
    exact stockInv_clampMap s.products it.product_id it.qty hs r hr

lemma stockInv_applyItems (cart : List CartItem) (s s2 : Store) (oid : Nat)
    (h : applyItems s oid cart = some s2) (hs : stockInv s) : stockInv s2 := by
  induction cart generalizing s with
  | nil => cases h; exact hs
  | cons it rest ih =>
    unfold applyItems at h
    cases ha : applyItem s oid it with
    | none => rw [ha] at h; cases h
    | some sMid =>
      rw [ha] at h
      exact ih sMid h (stockInv_applyItem s sMid oid it ha hs)

lemma finalizeOrder_some (s s2 : Store) (oid : Nat) (t : ℚ) (now : Int)
    (cust : String) (cart : List CartItem)
    (h : finalizeOrder s cart now cust = some (s2, oid, t)) :
    billTotal s cart = some t ∧ oid = s.next_order_id ∧
      applyItems (insertOrderRow s now cust t) s.next_order_id cart = some s2 := by
  unfold finalizeOrder at h
  split at h
  · cases h
  · rename_i total hbt
    split at h
    · cases h
    · rename_i sEnd hai
      cases h
      exact ⟨hbt, rfl, hai⟩

lemma stockInv_insertOrderRow (s : Store) (otime : Int) (cust : String)
    (t : ℚ) (hs : stockInv s) : stockInv (insertOrderRow s otime cust t) := hs

lemma stockInv_finalize (s : Store) (cart : List CartItem) (now : Int)
    (cust : String) (hs : stockInv s) :
    stockInv (addOrderAction s cart now cust).1 := by
  unfold addOrderAction
  by_cases hc : cart.isEmpty = true
  · rw [if_pos hc]; exact hs
  · rw [if_neg hc]
    cases hfo : finalizeOrder s cart now cust with
    | none => exact hs
    | some r =>
      obtain ⟨s2, oid, t⟩ := r
      obtain ⟨hbt, hoid, hai⟩ := finalizeOrder_some s s2 oid t now cust cart hfo
      exact stockInv_applyItems cart _ s2 s.next_order_id hai
        (stockInv_insertOrderRow s now cust t hs)

lemma stockInv_insertProducts (entries : List (String × ℚ × ℚ × Int))
    (s : Store) (hs : stockInv s) (he : ∀ e ∈ entries, 0 ≤ e.2.2.2) :
    stockInv (insertProducts s entries) := by
  induction entries generalizing s with
  | nil => exact hs
  | cons e rest ih =>
    obtain ⟨n, c, sp, st⟩ := e
    apply ih
    · intro p hp
      rcases List.mem_append.mp hp with h | h
      · exact hs p h
      · rcases List.mem_singleton.mp h with rfl
        exact he (n, c, sp, st) (List.mem_cons_self _ _)
    · intro e he2
      exact he e (List.mem_cons_of_mem _ he2)

lemma stockInv_seedItems (items : List (Nat × Nat)) (s : Store) (oid : Nat)
    (t : ℚ) (hs : stockInv s) : stockInv (seedItems s oid t items).1 := by
  induction items generalizing s t with
  | nil => exact hs
  | cons e rest ih =>
    obtain ⟨pid, q⟩ := e
    unfold seedItems
    split
    · exact ih s t hs
    · rename_i p hl
      apply ih
      intro r hr
      exact stockInv_clampMap s.products pid q hs r hr

lemma stockInv_seedOrder (s : Store) (cust : String) (otime : Int)
    (items : List (Nat × Nat)) (hs : stockInv s) :
    stockInv (seedOrder s cust otime items) := by
  unfold seedOrder
  exact stockInv_seedItems items (insertOrderRow s otime cust 0)
    s.next_order_id 0 hs

lemma stockInv_seedOrdersAll (l : List (String × Int × List (Nat × Nat)))
    (s : Store) (hs : stockInv s) : stockInv (seedOrdersAll s l) := by
  induction l generalizing s with
  | nil => exact hs
  | cons e rest ih =>
    obtain ⟨c, t, its⟩ := e
    exact ih (seedOrder s c t its) (stockInv_seedOrder s c t its hs)

lemma stockInv_seed (s : Store) (force : Bool) (now : Int) (hs : stockInv s) :
    stockInv (seed_dummy_data s force now) := by
  unfold seed_dummy_data
  split
  · exact hs
  · apply stockInv_seedOrdersAll
    apply stockInv_insertProducts
    · intro p hp
      simp at hp
    · intro e he
      revert e
      decide

lemma stockInv_step (s1 s2 : Store) (h : Step s1 s2) (hs : stockInv s1) :
    stockInv s2 := by
  cases h with
  | seed force now => exact stockInv_seed s1 force now hs
  | addProduct n c sp st hst => exact stockInv_addProduct s1 n c sp st hs hst
  | addStock pid q hq => exact stockInv_addStock s1 pid q hs
  | finalize cart now cust => exact stockInv_finalize s1 cart now cust hs

lemma find?_id_clampMap (l : List Product) (pid : Nat) (q : Nat) (x : Nat) :
    (l.map (clampAt pid q)).find? (fun p => p.id == x)
      = (l.find? (fun p => p.id == x)).map (clampAt pid q) := by
  rw [List.find?_map (clampAt pid q) l]
  have hfun : ((fun p : Product => p.id == x) ∘ clampAt pid q)
      = (fun p : Product => p.id == x) := by
    funext r
    show ((clampAt pid q r).id == x) = (r.id == x)
    rw [clampAt_id]
  rw [hfun]

lemma applyItem_fields (s s2 : Store) (oid : Nat) (it : CartItem)
    (h : applyItem s oid it = some s2) :
    ∃ p, lookupProduct s it.product_id = some p ∧
      s2.orders = s.orders ∧
      s2.next_order_id = s.next_order_id ∧
      s2.next_item_id = s.next_item_id + 1 ∧
      s2.order_items = s.order_items ++
        [⟨s.next_item_id, oid, it.product_id, it.qty, p.selling_price⟩] ∧
      s2.products = s.products.map (clampAt it.product_id it.qty) := by
  unfold applyItem at h
  split at h
  · cases h
  · rename_i p hl
    cases h
    exact ⟨p, hl, rfl, rfl, rfl, rfl, rfl⟩

lemma lookup_applyItem (s s2 : Store) (oid : Nat) (it : CartItem) (x : Nat)
    (h : applyItem s oid it = some s2) :
    lookupProduct s2 x
      = (lookupProduct s x).map (clampAt it.product_id it.qty) := by
  obtain ⟨p, hl, ho, hnoid, hnid, hitems, hprod⟩ := applyItem_fields s s2 oid it h
  unfold lookupProduct
  rw [hprod]
  exact find?_id_clampMap s.products it.product_id it.qty x

lemma priceOf_applyItem (s s2 : Store) (oid : Nat) (it : CartItem) (x : Nat)
    (h : applyItem s oid it = some s2) : priceOf s2 x = priceOf s x := by
  unfold priceOf
  rw [lookup_applyItem s s2 oid it x h]
  cases lookupProduct s x with
  | none => rfl
  | some r => exact clampAt_selling it.product_id it.qty r

lemma isSome_lookup_applyItem (s s2 : Store) (oid : Nat) (it : CartItem)
    (x : Nat) (h : applyItem s oid it = some s2) :
    (lookupProduct s2 x).isSome = (lookupProduct s x).isSome := by
  rw [lookup_applyItem s s2 oid it x h]
  cases lookupProduct s x <;> rfl

lemma expectedRows_congr (s1 s2 : Store)
    (hp : ∀ x, priceOf s1 x = priceOf s2 x) (oid : Nat) (cart : List CartItem) :
    ∀ base, expectedRows s1 oid base cart = expectedRows s2 oid base cart := by
  induction cart with
  | nil => intro base; rfl
  | cons it rest ih =>
    intro base
    unfold expectedRows
    rw [hp, ih]

lemma expectedRows_length (s : Store) (oid : Nat) (cart : List CartItem) :
    ∀ base, (expectedRows s oid base cart).length = cart.length := by
  induction cart with
  | nil => intro base; rfl
  | cons it rest ih =>
    intro base
    unfold expectedRows
    simp [ih]

lemma expectedRows_sum (s : Store) (oid : Nat) (cart : List CartItem) :
    ∀ base, ((expectedRows s oid base cart).map
      (fun r => r.unit_price * (r.qty : ℚ))).sum = cartTotal s cart := by
  induction cart with
  | nil => intro base; rfl
  | cons it rest ih =>
    intro base
    unfold expectedRows
    simp only [List.map_cons, List.sum_cons, ih]
    unfold cartTotal
    simp

lemma expectedRows_rows (s : Store) (oid : Nat) (cart : List CartItem) :
    ∀ base, ∀ r ∈ expectedRows s oid base cart,
      r.unit_price = priceOf s r.product_id ∧ r.order_id = oid := by
  induction cart with
  | nil => intro base r hr; cases hr
  | cons it rest ih =>
    intro base r hr
    unfold expectedRows at hr
    rcases List.mem_cons.mp hr with h | h
    · rw [h]
      exact ⟨rfl, rfl⟩
    · exact ih (base + 1) r h

lemma billTotal_eq (s : Store) (cart : List CartItem)
    (hall : ∀ it ∈ cart, (lookupProduct s it.product_id).isSome) :
    billTotal s cart = some (cartTotal s cart) := by
  induction cart with
  | nil => rfl
  | cons it rest ih =>
    obtain ⟨p, hp⟩ := Option.isSome_iff_exists.mp (hall it (List.mem_cons_self _ _))
    unfold billTotal
    rw [hp, ih (fun x hx => hall x (List.mem_cons_of_mem _ hx))]
    have hpr : priceOf s it.product_id = p.selling_price := by
      unfold priceOf
      rw [hp]
      rfl
    unfold cartTotal
    simp [hpr]

lemma expectedRows_cons (s : Store) (oid base : Nat) (it : CartItem)
    (rest : List CartItem) :
    expectedRows s oid base (it :: rest)
      = ⟨base, oid, it.product_id, it.qty, priceOf s it.product_id⟩ ::
          expectedRows s oid (base + 1) rest := rfl

lemma applyItems_spec (cart : List CartItem) (s : Store) (oid : Nat)
    (hall : ∀ it ∈ cart, (lookupProduct s it.product_id).isSome) :
    ∃ s2, applyItems s oid cart = some s2 ∧
      s2.orders = s.orders ∧
      s2.next_order_id = s.next_order_id ∧
      s2.order_items = s.order_items ++ expectedRows s oid s.next_item_id cart ∧
      (∀ x, priceOf s2 x = priceOf s x) := by
  induction cart generalizing s with
  | nil => exact ⟨s, rfl, rfl, rfl, by simp [expectedRows], fun x => rfl⟩
  | cons it rest ih =>
    obtain ⟨p, hp⟩ := Option.isSome_iff_exists.mp (hall it (List.mem_cons_self _ _))
    have ha : applyItem s oid it = some { s with
        order_items := s.order_items ++
          [⟨s.next_item_id, oid, it.product_id, it.qty, p.selling_price⟩],
        next_item_id := s.next_item_id + 1,
        products := s.products.map (clampAt it.product_id it.qty) } := by
      unfold applyItem
      rw [hp]
    set sMid : Store := { s with
        order_items := s.order_items ++
          [⟨s.next_item_id, oid, it.product_id, it.qty, p.selling_price⟩],
        next_item_id := s.next_item_id + 1,
        products := s.products.map (clampAt it.product_id it.qty) } with hsMid
    have hall2 : ∀ x ∈ rest, (lookupProduct sMid x.product_id).isSome := by
      intro x hx
      rw [isSome_lookup_applyItem s sMid oid it x.product_id ha]
      exact hall x (List.mem_cons_of_mem _ hx)
    obtain ⟨s2, hai, ho, hnoid, hitems, hpr⟩ := ih sMid hall2
    refine ⟨s2, ?_, ?_, ?_, ?_, ?_⟩
    · show applyItems s oid (it :: rest) = some s2
      unfold applyItems
      rw [ha]
      exact hai
    · rw [ho]
    · rw [hnoid]
    · rw [hitems]
      have hpmid : ∀ x, priceOf sMid x = priceOf s x := fun x =>
        priceOf_applyItem s sMid oid it x ha
      have hrows : expectedRows sMid oid sMid.next_item_id rest
          = expectedRows s oid (s.next_item_id + 1) rest := by
        exact expectedRows_congr sMid s hpmid oid rest (s.next_item_id + 1)
      rw [hrows]
      show (s.order_items ++
          [⟨s.next_item_id, oid, it.product_id, it.qty, p.selling_price⟩]) ++
            expectedRows s oid (s.next_item_id + 1) rest
        = s.order_items ++ expectedRows s oid s.next_item_id (it :: rest)
      rw [List.append_assoc]
      congr 1
      show [⟨s.next_item_id, oid, it.product_id, it.qty, p.selling_price⟩] ++
          expectedRows s oid (s.next_item_id + 1) rest
        = expectedRows s oid s.next_item_id (it :: rest)
      have hpe : priceOf s it.product_id = p.selling_price := by
        unfold priceOf
        rw [hp]
        rfl
      rw [expectedRows_cons s oid s.next_item_id it rest, hpe]
      rfl
    · intro x
      rw [hpr x, priceOf_applyItem s sMid oid it x ha]

/-- Claim C1: finalizing a non-empty staged cart whose product ids all
exist creates exactly one Order row and one OrderItem row per staged line,
prices every line at the product's current selling price as re-read from
the store at finalize time (the cart stores no price), sets total_amount
to the sum of unit_price times qty over those lines, and returns the new
order id together with that total. -/
theorem spec_finalize_totals (s : Store) (cart : List CartItem) (now : Int)
    (cust : String) (hne : cart ≠ [])
    (hall : ∀ it ∈ cart, (lookupProduct s it.product_id).isSome) :
    ∃ s2,
      addOrderAction s cart now cust
          = (s2, some (s.next_order_id, cartTotal s cart)) ∧
      s2.orders = s.orders ++ [⟨s.next_order_id, now, cust, cartTotal s cart⟩] ∧
      s2.order_items
          = s.order_items ++ expectedRows s s.next_order_id s.next_item_id cart ∧
      (expectedRows s s.next_order_id s.next_item_id cart).length = cart.length ∧
      ((expectedRows s s.next_order_id s.next_item_id cart).map
        (fun r => r.unit_price * (r.qty : ℚ))).sum = cartTotal s cart ∧
      (∀ r ∈ expectedRows s s.next_order_id s.next_item_id cart,
        r.unit_price = priceOf s r.product_id ∧ r.order_id = s.next_order_id) := by
  have hbt : billTotal s cart = some (cartTotal s cart) := billTotal_eq s cart hall
  have hall1 : ∀ it ∈ cart,
      (lookupProduct (insertOrderRow s now cust (cartTotal s cart))
        it.product_id).isSome := hall
  obtain ⟨s2, hai, ho, hnoid, hitems, hpr⟩ :=
    applyItems_spec cart (insertOrderRow s now cust (cartTotal s cart))
      s.next_order_id hall1
  have hie : cart.isEmpty = false := by
    cases cart with
    | nil => simp at hne
    | cons a l => rfl
  have hpeq : ∀ x, priceOf (insertOrderRow s now cust (cartTotal s cart)) x
      = priceOf s x := fun x => rfl
  have hrows : expectedRows (insertOrderRow s now cust (cartTotal s cart))
      s.next_order_id (insertOrderRow s now cust (cartTotal s cart)).next_item_id
        cart
      = expectedRows s s.next_order_id s.next_item_id cart :=
    expectedRows_congr _ s hpeq s.next_order_id cart s.next_item_id
  refine ⟨s2, ?_, ?_, ?_, expectedRows_length s s.next_order_id cart s.next_item_id,
    expectedRows_sum s s.next_order_id cart s.next_item_id,
    expectedRows_rows s s.next_order_id cart s.next_item_id⟩
  · unfold addOrderAction
    rw [hie]
    show (match finalizeOrder s cart now cust with
      | none => (s, none)
      | some (s2, oid, t) => (s2, some (oid, t)))
        = (s2, some (s.next_order_id, cartTotal s cart))
    have hfo : finalizeOrder s cart now cust
        = some (s2, s.next_order_id, cartTotal s cart) := by
      unfold finalizeOrder
      split
      · rename_i hbt2
        rw [hbt] at hbt2
        cases hbt2
      · rename_i total hbt2
        rw [hbt] at hbt2
        cases hbt2
        split
        · rename_i hai2
          rw [hai] at hai2
          cases hai2
        · rename_i sE hai2
          rw [hai] at hai2
          cases hai2
          rfl
    rw [hfo]
  · rw [ho]
    rfl
  · rw [hitems, hrows]
    rfl

/-- Claim C1, witness: the seeded store with the cart of the worked
example of the spec - product 1 at price 25 times 2 plus product 2 at
price 20 gives total 70. -/
theorem spec_finalize_totals_witness :
    ([⟨1, 2⟩, ⟨2, 1⟩] : List CartItem) ≠ [] ∧
    (∀ it ∈ ([⟨1, 2⟩, ⟨2, 1⟩] : List CartItem),
      (lookupProduct demoStore it.product_id).isSome) ∧
    cartTotal demoStore [⟨1, 2⟩, ⟨2, 1⟩] = 70 ∧
    ∃ s2,
      addOrderAction demoStore [⟨1, 2⟩, ⟨2, 1⟩] 1000 "Walk-in"
          = (s2, some (demoStore.next_order_id,
              cartTotal demoStore [⟨1, 2⟩, ⟨2, 1⟩])) ∧
      s2.orders = demoStore.orders ++ [⟨demoStore.next_order_id, 1000, "Walk-in",
        cartTotal demoStore [⟨1, 2⟩, ⟨2, 1⟩]⟩] ∧
      s2.order_items = demoStore.order_items ++
        expectedRows demoStore demoStore.next_order_id demoStore.next_item_id
          [⟨1, 2⟩, ⟨2, 1⟩] ∧
      (expectedRows demoStore demoStore.next_order_id demoStore.next_item_id
        [⟨1, 2⟩, ⟨2, 1⟩]).length = ([⟨1, 2⟩, ⟨2, 1⟩] : List CartItem).length ∧
      ((expectedRows demoStore demoStore.next_order_id demoStore.next_item_id
        [⟨1, 2⟩, ⟨2, 1⟩]).map (fun r => r.unit_price * (r.qty : ℚ))).sum
          = cartTotal demoStore [⟨1, 2⟩, ⟨2, 1⟩] ∧
      (∀ r ∈ expectedRows demoStore demoStore.next_order_id demoStore.next_item_id
          [⟨1, 2⟩, ⟨2, 1⟩],
        r.unit_price = priceOf demoStore r.product_id ∧
          r.order_id = demoStore.next_order_id) :=
  ⟨by decide, by decide, by
    (have hp1 : priceOf demoStore 1 = 25 := by decide
     have hp2 : priceOf demoStore 2 = 20 := by decide
     simp [cartTotal, hp1, hp2]
     norm_num),
    spec_finalize_totals demoStore [⟨1, 2⟩, ⟨2, 1⟩] 1000 "Walk-in"
      (by decide) (by decide)⟩

/-- Claim C2 (amended): for every non-empty list of orders,
compute_customers_per_hour returns exactly 24 rows, one per hour 0..23,
each row counting the orders whose order_time falls in that hour (0 for
hours with no orders), and the counts sum to the number of input orders. -/
theorem spec_customers_per_hour (orders : List Order) (hne : orders ≠ []) :
    compute_customers_per_hour orders
        = (List.range 24).map (fun h => (h, countHour orders h)) ∧
    (compute_customers_per_hour orders).length = 24 ∧
    ((compute_customers_per_hour orders).map (fun r => r.2)).sum = orders.length ∧
    ∀ r ∈ compute_customers_per_hour orders, r.1 < 24 ∧ r.2 = countHour orders r.1 := by
  have hie : orders.isEmpty = false := by
    cases orders with
    | nil => simp at hne
    | cons a l => rfl
  have hdef : compute_customers_per_hour orders
      = (List.range 24).map (fun h => (h, countHour orders h)) := by
    simp [compute_customers_per_hour, hie]
  refine ⟨hdef, ?_, ?_, ?_⟩
  · rw [hdef]; simp
  · rw [hdef, List.map_map]
    have hco : ((fun (r : Nat × Nat) => r.2) ∘ (fun h => (h, countHour orders h)))
        = fun h => countHour orders h := rfl
    rw [hco, sum_countHour]
  · intro r hr
    rw [hdef] at hr
    rcases List.mem_map.mp hr with ⟨h, hh, he⟩
    cases he
    exact ⟨List.mem_range.mp hh, rfl⟩

/-- Claim C2, counterexample: on the empty set of orders the function
returns an empty frame, not 24 rows, refuting the claim as stated. -/
theorem spec_customers_per_hour_cex :
    (compute_customers_per_hour ([] : List Order)).length ≠ 24 ∧
      compute_customers_per_hour ([] : List Order) = [] := by decide

/-- Claim C2, witness: the amended theorem applied to a one-order list. -/
theorem spec_customers_per_hour_witness :
    ([⟨1, 5, "A", 10⟩] : List Order) ≠ [] ∧
    (compute_customers_per_hour [⟨1, 5, "A", 10⟩]
        = (List.range 24).map (fun h => (h, countHour [⟨1, 5, "A", 10⟩] h)) ∧
      (compute_customers_per_hour [⟨1, 5, "A", 10⟩]).length = 24 ∧
      ((compute_customers_per_hour [⟨1, 5, "A", 10⟩]).map (fun r => r.2)).sum
          = ([⟨1, 5, "A", 10⟩] : List Order).length ∧
      ∀ r ∈ compute_customers_per_hour [⟨1, 5, "A", 10⟩],
        r.1 < 24 ∧ r.2 = countHour [⟨1, 5, "A", 10⟩] r.1) :=
  ⟨by decide, spec_customers_per_hour _ (by decide)⟩

/-- Claim C9: finalizing with an empty staged cart is rejected: the page
action leaves the store unchanged and returns no order. -/
theorem spec_empty_cart_rejected (s : Store) (now : Int) (cust : String) :
    addOrderAction s [] now cust = (s, none) := rfl

/-- Claim C3: a finalize attempt that fails at any step commits nothing:
the committed store equals the pre-finalize store, so no Order row, no
OrderItem row and no stock change is persisted.  (The code issues a single
commit after all statements; sqlite3 in its default isolation mode opens
an implicit transaction at the first insert, so an error before the commit
leaves the committed database untouched.) -/
theorem spec_finalize_atomic (s : Store) (cart : List CartItem) (now : Int)
    (cust : String) (h : finalizeOrder s cart now cust = none) :
    finalizeCommitted s cart now cust = s ∧
    (finalizeCommitted s cart now cust).orders = s.orders ∧
    (finalizeCommitted s cart now cust).order_items = s.order_items ∧
    (finalizeCommitted s cart now cust).products = s.products := by
  simp [finalizeCommitted, h]

/-- Claim C3, witness: finalizing a cart whose product id is absent fails
and commits nothing. -/
theorem spec_finalize_atomic_witness :
    finalizeOrder initStore [⟨1, 1⟩] 0 "W" = none ∧
    finalizeCommitted initStore [⟨1, 1⟩] 0 "W" = initStore ∧
    (finalizeCommitted initStore [⟨1, 1⟩] 0 "W").orders = initStore.orders ∧
    (finalizeCommitted initStore [⟨1, 1⟩] 0 "W").order_items = initStore.order_items ∧
    (finalizeCommitted initStore [⟨1, 1⟩] 0 "W").products = initStore.products :=
  ⟨by decide, spec_finalize_atomic initStore [⟨1, 1⟩] 0 "W" (by decide)⟩

/-- Claim C6, counterexample: two stores whose orders tables differ give
different LowStock results for identical products/order-items arguments,
so LowStock is not determined solely by its arguments. -/
theorem spec_aggregations_pure_cex :
    run_low_stock ⟨[], [], [], 1, 1, 1⟩ [⟨1, "P", 1, 2, 1⟩] [⟨1, 1, 1, 3, 2⟩] 1000 2
      ≠ run_low_stock ⟨[], [⟨1, 1000, "C", 0⟩], [], 1, 2, 1⟩
          [⟨1, "P", 1, 2, 1⟩] [⟨1, 1, 1, 3, 2⟩] 1000 2 := by decide

/-- Claim C6 (amended): BestSelling, TopProfitProducts and
CustomersPerHour are pure functions of their table arguments and ignore
the store entirely; LowStock re-reads the orders table from the store via
a fresh connection, so its result additionally depends on the store's
orders. -/
theorem spec_aggregations_pure_amended (s1 s2 : Store) (items : List ItemRow)
    (orders : List Order) (products : List Product)
    (order_items : List OrderItem) (now : Int) (threshold : Int) :
    run_best_selling s1 items = run_best_selling s2 items ∧
    run_top_profit s1 items = run_top_profit s2 items ∧
    run_customers_per_hour s1 orders = run_customers_per_hour s2 orders ∧
    run_low_stock s1 products order_items now threshold
        = compute_low_stock products order_items s1.orders now threshold :=
  ⟨rfl, rfl, rfl, rfl⟩

/-- Claim C4: in every store state reachable from a fresh database by
seeding, adding products, adding stock, or finalizing orders, every
product's stock_qty is nonnegative: all decrements are clamped at 0. -/
theorem spec_stock_never_negative (s : Store) (h : Reachable s) :
    stockInv s := by
  unfold Reachable at h
  induction h with
  | refl =>
    intro p hp
    simp [initStore] at hp
  | tail hab hbc ih => exact stockInv_step _ _ hbc ih

/-- Claim C4, witness: the invariant holds on the freshly seeded store,
reachable in one seed step. -/
theorem spec_stock_never_negative_witness : stockInv demoStore :=
  spec_stock_never_negative demoStore
    (Relation.ReflTransGen.single (Step.seed initStore false 720))

lemma contains_recent_iff (so : List Order) (t0 : Int) (x : Nat) :
    ((so.filter (fun o => decide (t0 ≤ o.order_time))).map (fun o => o.id)).contains x
      = so.any (fun o => o.id == x && decide (t0 ≤ o.order_time)) := by
  rw [Bool.eq_iff_iff]
  simp [List.any_eq_true, beq_iff_eq]
  constructor
  · rintro ⟨o, ⟨ho, ht⟩, hid⟩
    exact ⟨o, ho, hid, ht⟩
  · rintro ⟨o, ho, hid, ht⟩
    exact ⟨o, ⟨ho, ht⟩, hid⟩

lemma soldSpec_zero_of_noRecent (order_items : List OrderItem)
    (storeOrders : List Order) (now : Int) (pid : Nat)
    (h : ∀ o ∈ storeOrders, ¬ (now - 720 ≤ o.order_time)) :
    soldLast30Spec order_items storeOrders now pid = 0 := by
  unfold soldLast30Spec
  have hfil : order_items.filter (fun it =>
      storeOrders.any (fun o => o.id == it.order_id && now - 720 ≤ o.order_time)
        && it.product_id == pid) = [] := by
    rw [List.filter_eq_nil_iff]
    intro it hit
    simp [List.any_eq_true]
    intro o ho hoid ht
    exact absurd (by omega : now - 720 ≤ o.order_time) (h o ho)
  rw [hfil]
  rfl

/-- Claim C5: every row of the low-stock report has stock_qty strictly
below the threshold 2; its 30-day sold count equals the sum of qty over
order items whose parent order (in the orders read from the store) is
within the last 30 days, 0 when there are none; and the report is empty
when no product qualifies. -/
theorem spec_low_stock (products : List Product) (order_items : List OrderItem)
    (storeOrders : List Order) (now : Int) :
    (∀ r ∈ compute_low_stock products order_items storeOrders now 2,
      r.stock_qty < 2 ∧
        r.sold_last_30d = soldLast30Spec order_items storeOrders now r.id) ∧
    ((∀ p ∈ products, ¬ p.stock_qty < 2)
      → compute_low_stock products order_items storeOrders now 2 = []) := by
  constructor
  · intro r hr
    unfold compute_low_stock at hr
    split at hr
    · cases hr
    · rename_i hlow
      split at hr
      · rename_i hrec
        rcases List.mem_map.mp hr with ⟨p, hp, he⟩
        rcases List.mem_filter.mp hp with ⟨hpmem, hplt⟩
        have hnorec : ∀ o ∈ storeOrders, ¬ (now - 720 ≤ o.order_time) := by
          have hnil := List.isEmpty_iff.mp hrec
          intro o ho ht
          have hfo := (List.filter_eq_nil_iff.mp hnil) o ho
          simp at hfo
          omega
        rw [← he]
        refine ⟨of_decide_eq_true hplt, ?_⟩
        show (0 : Nat) = soldLast30Spec order_items storeOrders now p.id
        rw [soldSpec_zero_of_noRecent order_items storeOrders now p.id hnorec]
      · rename_i hrec
        rcases List.mem_map.mp hr with ⟨p, hp, he⟩
        rcases List.mem_filter.mp hp with ⟨hpmem, hplt⟩
        rw [← he]
        refine ⟨of_decide_eq_true hplt, ?_⟩
        show ((order_items.filter (fun it =>
            ((storeOrders.filter (fun o => decide (now - 720 ≤ o.order_time))).map
              (fun o => o.id)).contains it.order_id && it.product_id == p.id)).map
                (fun it => it.qty)).sum
          = soldLast30Spec order_items storeOrders now p.id
        unfold soldLast30Spec
        have hpred : (fun it : OrderItem =>
            (((storeOrders.filter (fun o => decide (now - 720 ≤ o.order_time))).map
              (fun o => o.id)).contains it.order_id && it.product_id == p.id))
            = (fun it : OrderItem =>
              (storeOrders.any (fun o => o.id == it.order_id
                && decide (now - 720 ≤ o.order_time)) && it.product_id == p.id)) := by
          funext it
          rw [contains_recent_iff]
        rw [hpred]
  · intro hno
    unfold compute_low_stock
    have hfil : products.filter (fun p => decide (p.stock_qty < 2)) = [] := by
      rw [List.filter_eq_nil_iff]
      intro p hp
      simp
      exact Int.not_lt.mp (hno p hp)
    rw [hfil]
    rfl

/-- Claim C5, witness: with a single well-stocked product the report is
empty. -/
theorem spec_low_stock_witness :
    (∀ p ∈ ([⟨1, "P", 1, 2, 5⟩] : List Product), ¬ p.stock_qty < 2) ∧
    compute_low_stock [⟨1, "P", 1, 2, 5⟩] [] [] 0 2 = [] :=
  ⟨by decide, (spec_low_stock [⟨1, "P", 1, 2, 5⟩] [] [] 0).2 (by decide)⟩

/-!  Structural lemmas about the seed loader. -/

lemma insertProducts_fields (entries : List (String × ℚ × ℚ × Int)) (s : Store) :
    (insertProducts s entries).orders = s.orders ∧
    (insertProducts s entries).order_items = s.order_items ∧
    (insertProducts s entries).next_order_id = s.next_order_id ∧
    (insertProducts s entries).next_item_id = s.next_item_id ∧
    (insertProducts s entries).products.length
      = s.products.length + entries.length := by
  induction entries generalizing s with
  | nil => exact ⟨rfl, rfl, rfl, rfl, rfl⟩
  | cons e rest ih =>
    obtain ⟨n, c, sp, st⟩ := e
    obtain ⟨h1, h2, h3, h4, h5⟩ := ih { s with
      products := s.products ++ [⟨s.next_product_id, n, c, sp, st⟩],
      next_product_id := s.next_product_id + 1 }
    unfold insertProducts
    refine ⟨h1, h2, h3, h4, ?_⟩
    rw [h5]
    simp
    omega

lemma isSome_find_clampMap (l : List Product) (pid : Nat) (q : Nat) (x : Nat) :
    ((l.map (clampAt pid q)).find? (fun p => p.id == x)).isSome
      = (l.find? (fun p => p.id == x)).isSome := by
  rw [find?_id_clampMap]
  cases l.find? (fun p => p.id == x) <;> rfl

lemma seedItems_fields (items : List (Nat × Nat)) (s : Store) (oid : Nat)
    (t : ℚ) :
    (seedItems s oid t items).1.orders = s.orders ∧
    (seedItems s oid t items).1.next_order_id = s.next_order_id ∧
    (seedItems s oid t items).1.products.length = s.products.length := by
  induction items generalizing s t with
  | nil => exact ⟨rfl, rfl, rfl⟩
  | cons e rest ih =>
    obtain ⟨pid, q⟩ := e
    unfold seedItems
    split
    · exact ih s t
    · rename_i p hl
      obtain ⟨h1, h2, h3⟩ := ih { s with
        order_items := s.order_items ++
          [⟨s.next_item_id, oid, pid, q, p.selling_price⟩],
        next_item_id := s.next_item_id + 1,
        products := s.products.map (clampAt pid q) } (t + p.selling_price * (q : ℚ))
      refine ⟨h1, h2, ?_⟩
      rw [h3]
      simp

lemma seedItems_item_count (items : List (Nat × Nat)) (s : Store) (oid : Nat)
    (t : ℚ) :
    (seedItems s oid t items).1.order_items.length
      = s.order_items.length
        + (items.filter (fun pq => (lookupProduct s pq.1).isSome)).length := by
  induction items generalizing s t with
  | nil => rfl
  | cons e rest ih =>
    obtain ⟨pid, q⟩ := e
    unfold seedItems
    split
    · rename_i hl
      rw [ih s t]
      have hp : ((lookupProduct s pid).isSome) = false := by
        rw [hl]
        rfl
      simp [List.filter_cons, hp]
    · rename_i p hl
      set s2 : Store := { s with
        order_items := s.order_items ++
          [⟨s.next_item_id, oid, pid, q, p.selling_price⟩],
        next_item_id := s.next_item_id + 1,
        products := s.products.map (clampAt pid q) } with hs2
      rw [ih s2 (t + p.selling_price * (q : ℚ))]
      have hfc : rest.filter (fun pq => (lookupProduct s2 pq.1).isSome)
          = rest.filter (fun pq => (lookupProduct s pq.1).isSome) := by
        apply List.filter_congr
        intro pq hpq
        show ((lookupProduct s2 pq.1).isSome) = ((lookupProduct s pq.1).isSome)
        unfold lookupProduct
        exact isSome_find_clampMap s.products pid q pq.1
      have hp : ((lookupProduct s pid).isSome) = true := by
        rw [hl]
        rfl
      rw [hfc]
      have hlen : s2.order_items.length = s.order_items.length + 1 := by
        rw [hs2]
        simp
      rw [hlen]
      simp [List.filter_cons, hp]
      omega

lemma itemsTotal_append (l1 l2 : List OrderItem) (oid : Nat) :
    itemsTotal (l1 ++ l2) oid = itemsTotal l1 oid + itemsTotal l2 oid := by
  unfold itemsTotal
  rw [List.filter_append, List.map_append, List.sum_append]

lemma itemsTotal_single_eq (x : OrderItem) (oid : Nat) (h : x.order_id = oid) :
    itemsTotal [x] oid = x.unit_price * (x.qty : ℚ) := by
  unfold itemsTotal
  simp [List.filter_cons, h]

lemma itemsTotal_single_ne (x : OrderItem) (oid : Nat) (h : x.order_id ≠ oid) :
    itemsTotal [x] oid = 0 := by
  unfold itemsTotal
  simp [List.filter_cons, h]

lemma itemsTotal_zero_of_lt (l : List OrderItem) (oid : Nat)
    (h : ∀ it ∈ l, it.order_id < oid) : itemsTotal l oid = 0 := by
  unfold itemsTotal
  have hfil : l.filter (fun it => it.order_id == oid) = [] := by
    rw [List.filter_eq_nil_iff]
    intro it hit
    have := h it hit
    simp
    omega
  rw [hfil]
  rfl

lemma seedItems_total (items : List (Nat × Nat)) (s : Store) (oid : Nat)
    (t : ℚ) :
    (∀ x, x ≠ oid →
      itemsTotal (seedItems s oid t items).1.order_items x
        = itemsTotal s.order_items x) ∧
    (itemsTotal (seedItems s oid t items).1.order_items oid
      = itemsTotal s.order_items oid + ((seedItems s oid t items).2 - t)) ∧
    (∀ it2 ∈ (seedItems s oid t items).1.order_items,
      it2.order_id = oid ∨ it2 ∈ s.order_items) := by
  induction items generalizing s t with
  | nil =>
    refine ⟨fun x hx => rfl, ?_, fun it2 h2 => Or.inr h2⟩
    show itemsTotal s.order_items oid = itemsTotal s.order_items oid + (t - t)
    ring
  | cons e rest ih =>
    obtain ⟨pid, q⟩ := e
    unfold seedItems
    split
    · exact ih s t
    · rename_i p hl
      set row : OrderItem := ⟨s.next_item_id, oid, pid, q, p.selling_price⟩ with hrow
      set s2 : Store := { s with
        order_items := s.order_items ++ [row],
        next_item_id := s.next_item_id + 1,
        products := s.products.map (clampAt pid q) } with hs2
      obtain ⟨ihx, ihoid, ihmem⟩ := ih s2 (t + p.selling_price * (q : ℚ))
      refine ⟨?_, ?_, ?_⟩
      · intro x hx
        rw [ihx x hx]
        show itemsTotal (s.order_items ++ [row]) x = itemsTotal s.order_items x
        rw [itemsTotal_append, itemsTotal_single_ne row x (by
          show oid ≠ x
          exact fun he => hx he.symm)]
        ring
      · rw [ihoid]
        show itemsTotal (s.order_items ++ [row]) oid
            + ((seedItems s2 oid (t + p.selling_price * (q : ℚ)) rest).2
              - (t + p.selling_price * (q : ℚ)))
          = itemsTotal s.order_items oid
            + ((seedItems s2 oid (t + p.selling_price * (q : ℚ)) rest).2 - t)
        rw [itemsTotal_append, itemsTotal_single_eq row oid rfl]
        show itemsTotal s.order_items oid + p.selling_price * (q : ℚ) + _ = _
        ring
      · intro it2 h2
        rcases ihmem it2 h2 with h | h
        · exact Or.inl h
        · rcases List.mem_append.mp h with h3 | h3
          · exact Or.inr h3
          · rcases List.mem_singleton.mp h3 with rfl
            exact Or.inl rfl

lemma setTotalAt_id (oid : Nat) (t : ℚ) (o : Order) :
    (setTotalAt oid t o).id = o.id := by
  unfold setTotalAt
  split <;> rfl

lemma setTotalAt_ne (oid : Nat) (t : ℚ) (o : Order) (h : o.id ≠ oid) :
    setTotalAt oid t o = o := by
  unfold setTotalAt
  rw [if_neg]
  simp
  exact h

lemma setTotalAt_eq (oid : Nat) (t : ℚ) (o : Order) (h : o.id = oid) :
    setTotalAt oid t o = { o with total_amount := t } := by
  unfold setTotalAt
  rw [if_pos]
  simp
  exact h

lemma seedOrder_counts (s : Store) (cust : String) (otime : Int)
    (items : List (Nat × Nat)) :
    (seedOrder s cust otime items).orders.length = s.orders.length + 1 ∧
    (seedOrder s cust otime items).order_items.length
      = s.order_items.length
        + (items.filter (fun pq => (lookupProduct s pq.1).isSome)).length := by
  unfold seedOrder
  constructor
  · simp only [setOrderTotal, List.length_map]
    rw [(seedItems_fields items (insertOrderRow s otime cust 0)
      s.next_order_id 0).1]
    simp [insertOrderRow]
  · simp only [setOrderTotal]
    rw [seedItems_item_count items (insertOrderRow s otime cust 0)
      s.next_order_id 0]
    rfl

lemma seedOrder_inv (s : Store) (cust : String) (otime : Int)
    (items : List (Nat × Nat))
    (hOrd : ∀ o ∈ s.orders, o.id < s.next_order_id)
    (hIt : ∀ it ∈ s.order_items, it.order_id < s.next_order_id)
    (hTot : ∀ o ∈ s.orders, o.total_amount = itemsTotal s.order_items o.id) :
    (∀ o ∈ (seedOrder s cust otime items).orders,
      o.id < (seedOrder s cust otime items).next_order_id) ∧
    (∀ it ∈ (seedOrder s cust otime items).order_items,
      it.order_id < (seedOrder s cust otime items).next_order_id) ∧
    (∀ o ∈ (seedOrder s cust otime items).orders,
      o.total_amount
        = itemsTotal (seedOrder s cust otime items).order_items o.id) := by
  have hsf := seedItems_fields items (insertOrderRow s otime cust 0)
    s.next_order_id 0
  have hst := seedItems_total items (insertOrderRow s otime cust 0)
    s.next_order_id 0
  have hnoid : (seedOrder s cust otime items).next_order_id
      = s.next_order_id + 1 := by
    unfold seedOrder
    simp only [setOrderTotal]
    rw [hsf.2.1]
    rfl
  have horders : (seedOrder s cust otime items).orders
      = (s.orders ++ [(⟨s.next_order_id, otime, cust, 0⟩ : Order)]).map
          (setTotalAt s.next_order_id
            (seedItems (insertOrderRow s otime cust 0) s.next_order_id
              0 items).2) := by
    unfold seedOrder
    simp only [setOrderTotal]
    rw [hsf.1]
    rfl
  have hitems : (seedOrder s cust otime items).order_items
      = (seedItems (insertOrderRow s otime cust 0) s.next_order_id
          0 items).1.order_items := by
    unfold seedOrder
    rfl
  have hbase : itemsTotal (insertOrderRow s otime cust 0).order_items
      s.next_order_id = 0 := by
    refine itemsTotal_zero_of_lt _ _ ?_
    intro it hit
    exact hIt it hit
  refine ⟨?_, ?_, ?_⟩
  · intro o ho
    rw [horders] at ho
    rw [hnoid]
    rcases List.mem_map.mp ho with ⟨o2, ho2, he⟩
    have hid : o.id = o2.id := by
      rw [← he]
      exact setTotalAt_id s.next_order_id _ o2
    rw [hid]
    rcases List.mem_append.mp ho2 with h | h
    · have := hOrd o2 h
      omega
    · rcases List.mem_singleton.mp h with rfl
      simp
  · intro it hit
    rw [hitems] at hit
    rw [hnoid]
    rcases hst.2.2 it hit with h | h
    · omega
    · have := hIt it h
      omega
  · intro o ho
    rw [horders] at ho
    rcases List.mem_map.mp ho with ⟨o2, ho2, he⟩
    rcases List.mem_append.mp ho2 with h | h
    · have hlt := hOrd o2 h
      have hne : setTotalAt s.next_order_id
          (seedItems (insertOrderRow s otime cust 0) s.next_order_id
            0 items).2 o2 = o2 := by
        apply setTotalAt_ne
        omega
      rw [hne] at he
      rw [← he]
      rw [hitems, hst.1 o2.id (by omega)]
      exact hTot o2 h
    · rcases List.mem_singleton.mp h with rfl
      have heq : setTotalAt s.next_order_id
          (seedItems (insertOrderRow s otime cust 0) s.next_order_id
            0 items).2 (⟨s.next_order_id, otime, cust, 0⟩ : Order)
          = { (⟨s.next_order_id, otime, cust, 0⟩ : Order) with total_amount :=
              (seedItems (insertOrderRow s otime cust 0) s.next_order_id
                0 items).2 } := by
        apply setTotalAt_eq
        rfl
      rw [← he, heq]
      show (seedItems (insertOrderRow s otime cust 0) s.next_order_id 0 items).2
        = itemsTotal (seedOrder s cust otime items).order_items s.next_order_id
      rw [hitems, hst.2.1, hbase]
      ring

lemma seedOrdersAll_inv (l : List (String × Int × List (Nat × Nat))) (s : Store)
    (hOrd : ∀ o ∈ s.orders, o.id < s.next_order_id)
    (hIt : ∀ it ∈ s.order_items, it.order_id < s.next_order_id)
    (hTot : ∀ o ∈ s.orders, o.total_amount = itemsTotal s.order_items o.id) :
    (∀ o ∈ (seedOrdersAll s l).orders, o.id < (seedOrdersAll s l).next_order_id) ∧
    (∀ it ∈ (seedOrdersAll s l).order_items,
      it.order_id < (seedOrdersAll s l).next_order_id) ∧
    (∀ o ∈ (seedOrdersAll s l).orders,
      o.total_amount = itemsTotal (seedOrdersAll s l).order_items o.id) := by
  induction l generalizing s with
  | nil => exact ⟨hOrd, hIt, hTot⟩
  | cons e rest ih =>
    obtain ⟨c, t, its⟩ := e
    obtain ⟨h1, h2, h3⟩ := seedOrder_inv s c t its hOrd hIt hTot
    exact ih (seedOrder s c t its) h1 h2 h3

lemma seedOrder_products_length (s : Store) (cust : String) (otime : Int)
    (items : List (Nat × Nat)) :
    (seedOrder s cust otime items).products.length = s.products.length := by
  unfold seedOrder
  simp only [setOrderTotal]
  exact (seedItems_fields items (insertOrderRow s otime cust 0)
    s.next_order_id 0).2.2

lemma seedOrdersAll_products_length (l : List (String × Int × List (Nat × Nat)))
    (s : Store) : (seedOrdersAll s l).products.length = s.products.length := by
  induction l generalizing s with
  | nil => rfl
  | cons e rest ih =>
    obtain ⟨c, t, its⟩ := e
    rw [show seedOrdersAll s ((c, t, its) :: rest)
      = seedOrdersAll (seedOrder s c t its) rest from rfl]
    rw [ih (seedOrder s c t its)]
    exact seedOrder_products_length s c t its

lemma seed_noop (s : Store) (now : Int) (h : s.products ≠ []) :
    seed_dummy_data s false now = s := by
  have hie : s.products.isEmpty = false := by
    cases hp : s.products
    · exact absurd hp h
    · rfl
  simp [seed_dummy_data, hie]

lemma seed_cond_false (s : Store) (force : Bool)
    (h : s.products = [] ∨ force = true) :
    ¬ (¬ (s.products.isEmpty = true) ∧ force = false) := by
  rcases h with h | h
  · intro hc
    exact hc.1 (by rw [h]; rfl)
  · intro hc
    rw [h] at hc
    cases hc.2

lemma seed_products_length (s : Store) (force : Bool) (now : Int)
    (h : s.products = [] ∨ force = true) :
    (seed_dummy_data s force now).products.length = 10 := by
  unfold seed_dummy_data
  rw [if_neg (seed_cond_false s force h)]
  rw [seedOrdersAll_products_length]
  rw [(insertProducts_fields seedProducts
    { s with products := [], orders := [], order_items := [] }).2.2.2.2]
  rfl

/-- Claim C8: the seed loader with force off is a no-op on any store whose
products table is non-empty (all three tables, and the whole store, are
unchanged), and running it twice with force off equals running it once. -/
theorem spec_seed_idempotent (s : Store) (now now2 : Int) :
    seed_dummy_data (seed_dummy_data s false now) false now2
        = seed_dummy_data s false now ∧
    ∀ (h : s.products ≠ []), seed_dummy_data s false now = s := by
  constructor
  · by_cases hp : s.products = []
    · apply seed_noop
      have hlen := seed_products_length s false now (Or.inl hp)
      intro he
      rw [he] at hlen
      simp at hlen
    · rw [seed_noop s now hp]
      exact seed_noop s now2 hp
  · intro h
    exact seed_noop s now h

/-- Claim C8, witness: on a store holding one product, a non-forced seed
run changes nothing and a second run is also a no-op. -/
theorem spec_seed_idempotent_witness :
    (seed_dummy_data (seed_dummy_data ⟨[⟨1, "X", 1, 1, 1⟩], [], [], 2, 1, 1⟩
        false 0) false 0
      = seed_dummy_data ⟨[⟨1, "X", 1, 1, 1⟩], [], [], 2, 1, 1⟩ false 0) ∧
    seed_dummy_data ⟨[⟨1, "X", 1, 1, 1⟩], [], [], 2, 1, 1⟩ false 0
      = ⟨[⟨1, "X", 1, 1, 1⟩], [], [], 2, 1, 1⟩ :=
  ⟨(spec_seed_idempotent ⟨[⟨1, "X", 1, 1, 1⟩], [], [], 2, 1, 1⟩ 0 0).1,
    (spec_seed_idempotent ⟨[⟨1, "X", 1, 1, 1⟩], [], [], 2, 1, 1⟩ 0 0).2
      (by decide)⟩

/-- Claim C7 (amended): when a sample line item references a missing
product id, only that line item is skipped: the Order row itself is still
created (orders grow by one for every sample order), and exactly the line
items whose product id exists become OrderItem rows. -/
theorem spec_seed_skips_missing (s : Store) (cust : String) (otime : Int)
    (items : List (Nat × Nat)) :
    (seedOrder s cust otime items).orders.length = s.orders.length + 1 ∧
    (seedOrder s cust otime items).order_items.length
      = s.order_items.length
        + (items.filter (fun pq => (lookupProduct s pq.1).isSome)).length :=
  seedOrder_counts s cust otime items

/-- Claim C7, counterexample: a forced re-seed leaves the AUTOINCREMENT
sequence untouched, so the new products get ids 11..20 while the fixed
sample orders reference ids 1..10; every referenced id is then missing,
yet all 7 Order rows are still created (with no items) - the claim that
the entire sample order is skipped is false. -/
theorem spec_seed_skips_missing_cex :
    (∃ e ∈ sampleOrders 720, ∃ pq ∈ e.2.2, (pq : Nat × Nat).1 = 1) ∧
    lookupProduct (seed_dummy_data demoStore true 720) 1 = none ∧
    (seed_dummy_data demoStore true 720).orders.length = 7 ∧
    (seed_dummy_data demoStore true 720).order_items = [] := by decide

/-- Claim C10: whenever the seed loader actually seeds (empty products
table or force), every seeded Order row's total_amount equals the sum of
unit_price times qty over exactly the OrderItem rows inserted for it;
skipped line items contribute neither a row nor any amount. -/
theorem spec_seed_totals (s : Store) (force : Bool) (now : Int)
    (h : s.products = [] ∨ force = true) :
    ∀ o ∈ (seed_dummy_data s force now).orders,
      o.total_amount
        = itemsTotal (seed_dummy_data s force now).order_items o.id := by
  unfold seed_dummy_data
  rw [if_neg (seed_cond_false s force h)]
  have h0 := insertProducts_fields seedProducts
    { s with products := [], orders := [], order_items := [] }
  refine (seedOrdersAll_inv (sampleOrders now) _ ?_ ?_ ?_).2.2
  · intro o ho
    rw [h0.1] at ho
    exact absurd ho (List.not_mem_nil o)
  · intro it hit
    rw [h0.2.1] at hit
    exact absurd hit (List.not_mem_nil it)
  · intro o ho
    rw [h0.1] at ho
    exact absurd ho (List.not_mem_nil o)

/-- Claim C10, witness: the consistency holds for a seed run on a fresh
store. -/
theorem spec_seed_totals_witness :
    ((initStore : Store).products = [] ∨ false = true) ∧
    ∀ o ∈ (seed_dummy_data initStore false 720).orders,
      o.total_amount
        = itemsTotal (seed_dummy_data initStore false 720).order_items o.id :=
  ⟨Or.inl rfl, spec_seed_totals initStore false 720 (Or.inl rfl)⟩

/-- Claim C9, witness: the empty-cart action on a fresh store. -/
theorem spec_empty_cart_rejected_witness :
    addOrderAction initStore [] 0 "W" = (initStore, none) :=
  spec_empty_cart_rejected initStore 0 "W"

/-- Claim C7, witness: seeding one order on the demo store with one
existing and one missing product id. -/
theorem spec_seed_skips_missing_witness :
    (seedOrder demoStore "A" 0 [(1, 1), (99, 1)]).orders.length
        = demoStore.orders.length + 1 ∧
    (seedOrder demoStore "A" 0 [(1, 1), (99, 1)]).order_items.length
      = demoStore.order_items.length
        + (([(1, 1), (99, 1)] : List (Nat × Nat)).filter
            (fun pq => (lookupProduct demoStore pq.1).isSome)).length :=
  spec_seed_skips_missing demoStore "A" 0 [(1, 1), (99, 1)]

/-- Claim C6, witness: the amended purity statement at concrete stores. -/
theorem spec_aggregations_pure_amended_witness :
    run_best_selling initStore [] = run_best_selling demoStore [] ∧
    run_top_profit initStore [] = run_top_profit demoStore [] ∧
    run_customers_per_hour initStore [] = run_customers_per_hour demoStore [] ∧
    run_low_stock initStore [] [] 0 2
        = compute_low_stock [] [] initStore.orders 0 2 :=
  spec_aggregations_pure_amended initStore demoStore [] [] [] [] 0 2
